import Mathlib

/-!
Verification of the task-assignment server's notification fan-out and cleanup
routine, its token registry operations, and its auth endpoints, as a shallow
embedding of the JavaScript source (routes/tasks.js first variant,
service/notificationService.js, models/User, routes/auth.js).

Storage and network effects are made explicit: every function that performs a
database round-trip or a push-gateway call also returns the ordered list of
`Event`s it produced, and functions that mutate the user collection return the
updated registry.  Fallible JavaScript code (thrown errors / rejected promises)
is embedded with `Except`.
-/

namespace TaskServer

/-- One entry of a user's `fcmTokens` array (models/User schema). -/
structure TokenEntry where
  token : String
  platform : String
  createdAt : Nat
deriving Repr, DecidableEq

/-- A document of the `users` collection (models/User schema: `name`, `email`,
`password` required; `role` constrained to the enum `admin`/`user`;
`fcmTokens` array plus legacy single `fcmToken` field, embedded as `Option`). -/
structure UserRec where
  id : String
  name : String
  email : String
  password : String
  role : String
  fcmTokens : List TokenEntry
  fcmToken : Option String
deriving Repr, DecidableEq

/-- The users collection. -/
abbrev Registry := List UserRec

/-- Observable storage / network effects, in program order. -/
inductive Event where
  /-- the batched `User.find({_id: {$in: ids}})` in `sendTaskAssignedNotifications` -/
  | dbFind (ids : List String)
  /-- the `UserModel.findById(userId)` inside `sendNotificationToUserFromDb` -/
  | dbFindById (uid : String)
  /-- one HTTP POST to the FCM endpoint (`sendToToken`'s `fetch`) -/
  | gatewaySend (token : String)
  /-- `User.updateMany({fcmTokens.token: t}, {$pull: ...})` during cleanup -/
  | dbPullToken (token : String)
  /-- `User.updateMany({fcmToken: t}, {$unset: ...})` during cleanup -/
  | dbUnsetLegacy (token : String)
deriving Repr, DecidableEq

/-- Response of the push gateway to one HTTP send (status plus body). -/
structure GatewayResp where
  status : Nat
  body : String
deriving Repr, DecidableEq

/-- The external FCM endpoint, abstracted as token ↦ HTTP response. -/
abbrev Gateway := String → GatewayResp

/-- `res.ok` of fetch: HTTP status in [200, 300). -/
def httpOk (n : Nat) : Bool := 200 ≤ n && n < 300

/-- Notification payload handed to `sendToToken` (`{title, body, data}`). -/
structure Payload where
  title : String
  body : String
  data : List (String × String)
deriving Repr, DecidableEq

/-- Per-token result record produced by `sendNotificationToUserFromDb`
(`{token, ok, error}`; the success body is dropped as opaque). -/
structure SendResult where
  token : String
  ok : Bool
  error : Option String
deriving Repr, DecidableEq

/-- The FCM v1 message body built by `sendToToken`
(`{message: {token, notification: {title, body}, data}}`). -/
structure FcmMessage where
  token : String
  title : String
  body : String
  data : List (String × String)
deriving Repr, DecidableEq

/-- Message construction of `sendToToken`: `payload.title || 'Notification'`,
`payload.body || ''`, `payload.data || {}`. -/
def buildMessage (token : String) (p : Payload) : FcmMessage :=
  { token := token
    title := if p.title == "" then "Notification" else p.title
    body := p.body
    data := p.data }

/-- `sendToToken` (notificationService): throws on a missing token before any
network call; otherwise POSTs the built message to the gateway once and throws
on a non-2xx response. -/
def sendToToken (gw : Gateway) (token : String) (p : Payload) :
    Except String String × List Event :=
  if token == "" then (.error "Missing registration token", [])
  else
    let msg := buildMessage token p
    let res := gw msg.token
    if httpOk res.status then (.ok res.body, [.gatewaySend token])
    else (.error ("FCM send failed: HTTP " ++ toString res.status ++ " - " ++ res.body),
          [.gatewaySend token])

/-- Token gathering of `sendNotificationToUserFromDb`: entries of the
`fcmTokens` array with a truthy `token` field, then the legacy `fcmToken`
string when truthy (non-empty). -/
def gatherTokens (u : UserRec) : List String :=
  (u.fcmTokens.filterMap fun e => if e.token == "" then none else some e.token)
    ++ (match u.fcmToken with
        | some t => if t == "" then [] else [t]
        | none => [])

/-- `Array.from(new Set(tokens))`: first occurrence of each value, in order;
`seen` accumulates the values already emitted. -/
def dedupFrom : List String → List String → List String
  | [], _ => []
  | t :: ts, seen => if t ∈ seen then dedupFrom ts seen else t :: dedupFrom ts (t :: seen)

/-- Deduplicate a token list, keeping first occurrences. -/
def dedup (ts : List String) : List String := dedupFrom ts []

/-- `User.findById(uid)`: first document with the given `_id`. -/
def findById (db : Registry) (uid : String) : Option UserRec :=
  db.find? fun u => u.id == uid

/-- The per-token send loop of `sendNotificationToUserFromDb`: each token is
tried in order, a thrown send is caught and recorded (`ok := false`), so one
token's failure never aborts the rest. -/
def sendTokensLoop (gw : Gateway) (p : Payload) : List String → List SendResult × List Event
  | [] => ([], [])
  | tk :: rest =>
    let s := sendToToken gw tk p
    let r : SendResult :=
      match s.1 with
      | .ok _ => { token := tk, ok := true, error := none }
      | .error e => { token := tk, ok := false, error := some e }
    let tail := sendTokensLoop gw p rest
    (r :: tail.1, s.2 ++ tail.2)

/-- `sendNotificationToUserFromDb(UserModel, userId, payload)`: throws on a
falsy userId, an unknown user, or an empty gathered token list; otherwise sends
to each deduplicated token and returns the per-token results. -/
def sendNotificationToUserFromDb (gw : Gateway) (db : Registry) (userId : String)
    (p : Payload) : Except String (List SendResult) × List Event :=
  if userId == "" then (.error "userId required", [])
  else
    match findById db userId with
    | none => (.error ("User not found: " ++ userId), [.dbFindById userId])
    | some user =>
      let tokens := gatherTokens user
      if tokens.isEmpty then
        (.error ("No FCM tokens found for user " ++ userId), [.dbFindById userId])
      else
        let sent := sendTokensLoop gw p (dedup tokens)
        (.ok sent.1, .dbFindById userId :: sent.2)

/-- A task document as dispatch reads it. -/
structure Task where
  id : String
  title : String
  description : String
deriving Repr, DecidableEq

/-- The payload built in `sendTaskAssignedNotifications` for one task. -/
def taskPayload (task : Task) : Payload :=
  { title := "New Task: " ++ task.title
    body := if task.description == "" then "You have been assigned a new task"
            else task.description
    data := [("taskId", task.id), ("taskTitle", task.title)] }

/-- One element of `sendSummary`: the `{userId, ok, results, failed}` object on
the success path, or `{userId, ok: false, error}` when the service threw (then
`results`/`failed` are absent, embedded as `[]`). -/
structure UserSummary where
  userId : String
  ok : Bool
  results : List SendResult
  failed : List SendResult
  error : Option String
deriving Repr, DecidableEq

/-- One element of `failedTokensToCleanup` (`{token, reason}`). -/
structure CleanupItem where
  token : String
  reason : String
deriving Repr, DecidableEq

/-- Return value of `sendTaskAssignedNotifications`: the early
`{sent: 0, failed: 0, details: []}` object, or `{summary, failedTokens}`. -/
inductive DispatchResult where
  | empty
  | report (summary : List UserSummary) (failedTokens : List CleanupItem)
deriving Repr, DecidableEq

/-- Body of the per-user loop in `sendTaskAssignedNotifications`: call the
notification service for one user id, catching a thrown error into the summary
entry; on success, `failed` collects the non-ok results. -/
def dispatchUser (gw : Gateway) (db : Registry) (task : Task) (uid : String) :
    UserSummary × List Event :=
  let s := sendNotificationToUserFromDb gw db uid (taskPayload task)
  (match s.1 with
   | .ok results =>
     let failed := results.filter fun r => !r.ok
     { userId := uid, ok := failed.isEmpty, results := results, failed := failed,
       error := none }
   | .error e =>
     { userId := uid, ok := false, results := [], failed := [], error := some e },
   s.2)

/-- The per-user loop over the fetched users. -/
def dispatchUsers (gw : Gateway) (db : Registry) (task : Task) :
    List String → List UserSummary × List Event
  | [] => ([], [])
  | uid :: rest =>
    let h := dispatchUser gw db task uid
    let t := dispatchUsers gw db task rest
    (h.1 :: t.1, h.2 ++ t.2)

/-- Step 3 of `sendTaskAssignedNotifications`: every entry's `failed` results
with a truthy token become `{token, reason: f.error || 'unknown'}` items. -/
def collectFailedTokens (summaries : List UserSummary) : List CleanupItem :=
  summaries.flatMap fun entry =>
    entry.failed.filterMap fun f =>
      if f.token == "" then none
      else some { token := f.token, reason := f.error.getD "unknown" }

/-- `$pull: {fcmTokens: {token: tv}}` applied to one user document. -/
def pullToken (tv : String) (u : UserRec) : UserRec :=
  { u with fcmTokens := u.fcmTokens.filter fun e => !(e.token == tv) }

/-- `$unset: {fcmToken: ''}` on documents matching `{fcmToken: tv}`. -/
def unsetLegacyTok (tv : String) (u : UserRec) : UserRec :=
  if u.fcmToken == some tv then { u with fcmToken := none } else u

/-- The two `User.updateMany` calls removing one token value from every
document (array pull, then legacy-field unset). -/
def removeTokenEverywhere (db : Registry) (tv : String) : Registry × List Event :=
  ((db.map (pullToken tv)).map (unsetLegacyTok tv), [.dbPullToken tv, .dbUnsetLegacy tv])

/-- The cleanup loop over `failedTokensToCleanup`; each token's removal is
independent (an item's storage error would be caught, and storage operations
are modelled as succeeding). -/
def cleanupLoop (db : Registry) : List CleanupItem → Registry × List Event
  | [] => (db, [])
  | f :: rest =>
    let s := removeTokenEverywhere db f.token
    let t := cleanupLoop s.1 rest
    (t.1, s.2 ++ t.2)

/-- `User.find({_id: {$in: ids}})`: the documents whose id is in the set, in
collection order, each at most once. -/
def fetchUsers (db : Registry) (ids : List String) : List UserRec :=
  db.filter fun u => ids.contains u.id

/-- `sendTaskAssignedNotifications(task, assignedUserIds)` (routes/tasks.js):
empty assignee list short-circuits; the batched user fetch is outside any
try/catch, so a storage failure there (`findFails = some msg`) rejects the
whole call with no sends attempted; otherwise per-user sends run with isolated
failure handling, failed tokens are collected, and cleanup mutates the
registry.  Returns (result-or-thrown-error, registry after, events). -/
def sendTaskAssignedNotifications (gw : Gateway) (findFails : Option String)
    (db : Registry) (task : Task) (assignedUserIds : List String) :
    Except String DispatchResult × Registry × List Event :=
  if assignedUserIds.isEmpty then (.ok .empty, db, [])
  else
    match findFails with
    | some msg => (.error msg, db, [.dbFind assignedUserIds])
    | none =>
      let users := fetchUsers db assignedUserIds
      let sent := dispatchUsers gw db task (users.map fun u => u.id)
      let failedTokens := collectFailedTokens sent.1
      let cleaned := cleanupLoop db failedTokens
      (.ok (.report sent.1 failedTokens), cleaned.1,
       .dbFind assignedUserIds :: (sent.2 ++ cleaned.2))

/-- Whether an event is a gateway send call. -/
def isSendEvent : Event → Bool
  | .gatewaySend _ => true
  | _ => false

/-- Whether an event is a token-lookup storage round-trip. -/
def isLookupEvent : Event → Bool
  | .dbFind _ => true
  | .dbFindById _ => true
  | _ => false

/-- Number of gateway send calls in an event trace. -/
def sendCount (evs : List Event) : Nat := (evs.filter isSendEvent).length

/-- Number of token-lookup storage round-trips in an event trace. -/
def lookupCount (evs : List Event) : Nat := (evs.filter isLookupEvent).length

/-- Number of gateway send calls to one specific token value. -/
def sendCountFor (tv : String) (evs : List Event) : Nat :=
  (evs.filter fun e => e == .gatewaySend tv).length

/-- HTTP status codes of a task-creation style response. -/
inductive ApiStatus where
  | created
  | badRequest
  | serverError
deriving Repr, DecidableEq

/-- The `assignedTo` field of a request body: an array, a single value, or
absent (JavaScript is duck-typed here). -/
inductive BodyField where
  | arr (l : List String)
  | single (s : String)
  | absent
deriving Repr, DecidableEq

/-- Coercion done in POST /api/tasks:
`Array.isArray(assignedTo) ? assignedTo : (assignedTo ? [assignedTo] : [])`. -/
def toAssignedArr : BodyField → List String
  | .arr l => l
  | .single s => if s == "" then [] else [s]
  | .absent => []

/-- Whitespace trim of `title.toString().trim()`, embedded structurally over
the character list so it computes in the kernel. -/
def strTrim (s : String) : String :=
  String.mk (((s.data.dropWhile Char.isWhitespace).reverse.dropWhile
    Char.isWhitespace).reverse)

/-- Body of a POST /api/tasks request (`{title, description, assignedTo}`). -/
structure CreateTaskReq where
  title : Option String
  description : Option String
  assignedTo : BodyField
deriving Repr, DecidableEq

/-- POST /api/tasks (routes/tasks.js): rejects a falsy or whitespace-only
title with 400; a failed `save()` is caught into 500; after a successful save
the notification call is wrapped in its own try/catch, so the endpoint replies
201 whatever the dispatch produced (including a rejected lookup). -/
def createTaskHandler (gw : Gateway) (findFails : Option String) (saveFails : Bool)
    (db : Registry) (newTaskId : String) (req : CreateTaskReq) :
    ApiStatus × Registry :=
  match req.title with
  | none => (.badRequest, db)
  | some t =>
    if strTrim t == "" then (.badRequest, db)
    else if saveFails then (.serverError, db)
    else
      let assignedArr := toAssignedArr req.assignedTo
      let task : Task := { id := newTaskId, title := t, description := req.description.getD "" }
      let notif := sendTaskAssignedNotifications gw findFails db task assignedArr
      (.created, notif.2.1)

/-- Apply `f` to the first document matching `p` (mongo `updateOne` /
`findByIdAndUpdate` update at most one document). -/
def updateFirst (p : UserRec → Bool) (f : UserRec → UserRec) : Registry → Registry
  | [] => []
  | u :: rest => if p u then f u :: rest else u :: updateFirst p f rest

/-- POST /api/tasks/device-token: rejects a falsy `fcmToken`; otherwise one
`updateOne` pushes the token entry onto the matching user only when no
existing entry has that token value (`'fcmTokens.token': {$ne: fcmToken}` in
the filter), then `findByIdAndUpdate` sets the legacy single-token field. -/
def deviceTokenHandler (db : Registry) (uid : String) (fcmTokenField : Option String)
    (platform : Option String) (now : Nat) : Except String Unit × Registry :=
  match fcmTokenField with
  | none => (.error "fcmToken required", db)
  | some tok =>
    if tok == "" then (.error "fcmToken required", db)
    else
      let db1 := updateFirst
        (fun u => u.id == uid && !(u.fcmTokens.any fun e => e.token == tok))
        (fun u => { u with fcmTokens :=
            u.fcmTokens ++ [{ token := tok, platform := platform.getD "", createdAt := now }] })
        db
      let db2 := updateFirst (fun u => u.id == uid)
        (fun u => { u with fcmToken := some tok }) db1
      (.ok (), db2)

/-- Effective role computed in POST /api/auth/register: `role || 'user'`
(absent and the empty string are both falsy). -/
def effRole : Option String → String
  | some r => if r == "" then "user" else r
  | none => "user"

/-- The User schema's `enum: ['admin','user']` constraint on `role`. -/
def validRole (r : String) : Bool := r == "admin" || r == "user"

/-- Mongoose `save()` validation of the User schema: `name`, `email`,
`password` are required (the empty string fails `required` for a String path)
and `role` must be in the enum. -/
def saveValid (u : UserRec) : Bool :=
  !(u.name == "") && !(u.email == "") && !(u.password == "") && validRole u.role

/-- Body of a POST /api/auth/register request. -/
structure RegisterReq where
  name : String
  email : String
  password : String
  role : Option String
deriving Repr, DecidableEq

/-- The claims object signed into the session JWT (`{id, role}`). -/
structure JwtPayload where
  id : String
  role : String
deriving Repr, DecidableEq

/-- Response of POST /api/auth/register. -/
inductive RegisterResp where
  | userExists
  | success (jwt : JwtPayload) (userId : String) (name : String) (email : String)
      (role : String)
  | serverError
deriving Repr, DecidableEq

/-- POST /api/auth/register (routes/auth.js): no auth middleware; duplicate
email is rejected; otherwise the password is hashed and a user is saved with
`role: role || 'user'` taken straight from the request body; a failed save
(schema validation) is caught into a 500; on success a JWT carrying
`{id, role}` is returned.  `hash` abstracts bcrypt, `newId` the generated
ObjectId. -/
def register (hash : String → String) (newId : String) (db : Registry)
    (req : RegisterReq) : RegisterResp × Registry :=
  match db.find? (fun u => u.email == req.email) with
  | some _ => (.userExists, db)
  | none =>
    let user : UserRec :=
      { id := newId, name := req.name, email := req.email,
        password := hash req.password, role := effRole req.role,
        fcmTokens := [], fcmToken := none }
    if saveValid user then
      (.success { id := newId, role := user.role } newId user.name user.email user.role,
       db ++ [user])
    else (.serverError, db)

/-- Modelled from the spec: the failure taxonomy of sections 4.2 and 7.  The
source performs no classification whatsoever (any non-2xx gateway response
raises one generic error), so this definition follows the spec's words in
order to state claims about outcome classes: credential problems (401/403) are
`authError`, network/rate-limit/5xx are `transientError`, and the remaining
gateway-reported failures (unregistered or malformed token: 400/404) are
`invalidToken`. -/
inductive FailureClass where
  | invalidToken
  | transientError
  | authError
deriving Repr, DecidableEq

/-- Modelled from the spec: classification of one gateway HTTP status into the
spec's failure taxonomy (`none` for an accepted 2xx response). -/
def specClassify (status : Nat) : Option FailureClass :=
  if httpOk status then none
  else if status == 401 || status == 403 then some .authError
  else if 500 ≤ status || status == 429 then some .transientError
  else some .invalidToken

/-- A user's membership predicate for one token value: it occurs in the
`fcmTokens` array or in the legacy `fcmToken` field. -/
def holdsToken (u : UserRec) (tv : String) : Prop :=
  (∃ e ∈ u.fcmTokens, e.token = tv) ∨ u.fcmToken = some tv

instance (u : UserRec) (tv : String) : Decidable (holdsToken u tv) := by
  unfold holdsToken
  infer_instance

/-! ## Concrete fixtures used by counterexamples and witnesses -/

/-- A gateway accepting every send with 200. -/
def gw200 : Gateway := fun _ => { status := 200, body := "projects/demo/messages/m1" }

/-- A gateway answering every send with a 500 (a transient server error in the
spec's taxonomy). -/
def gw500 : Gateway := fun _ => { status := 500, body := "Internal Server Error" }

/-- A gateway answering every send with a 401 (an auth error in the spec's
taxonomy). -/
def gw401 : Gateway := fun _ => { status := 401, body := "Unauthorized" }

def entryT1 : TokenEntry := { token := "t1", platform := "android", createdAt := 0 }

def entryT2 : TokenEntry := { token := "t2", platform := "ios", createdAt := 0 }

def entryTokA : TokenEntry := { token := "tokA", platform := "android", createdAt := 0 }

def userU1 : UserRec :=
  { id := "u1", name := "Alice", email := "alice@example.com", password := "h1",
    role := "user", fcmTokens := [entryT1], fcmToken := none }

def userU2 : UserRec :=
  { id := "u2", name := "Bob", email := "bob@example.com", password := "h2",
    role := "user", fcmTokens := [entryT2], fcmToken := none }

def userU3 : UserRec :=
  { id := "u3", name := "Cara", email := "cara@example.com", password := "h3",
    role := "user", fcmTokens := [], fcmToken := none }

def userUA : UserRec :=
  { id := "uA", name := "Ann", email := "ann@example.com", password := "hA",
    role := "user", fcmTokens := [entryTokA], fcmToken := none }

def userUB : UserRec :=
  { id := "uB", name := "Ben", email := "ben@example.com", password := "hB",
    role := "user", fcmTokens := [entryTokA], fcmToken := none }

def taskT : Task := { id := "task1", title := "Ship it", description := "" }

def hashFix : String → String := fun s => "hashed:" ++ s

/-! ## Claims -/

/-- Claim C1 (code bug).  The claim says only `InvalidToken` outcomes may lead
to a `removeToken` call, while `TransientError` / `AuthError` outcomes must
leave the token in place.  The code collects every non-ok send result for
cleanup without any classification: here a gateway answering HTTP 500
(`transientError` in the spec's taxonomy) and one answering HTTP 401
(`authError`) both cause the dispatched token to be pulled from the holder's
record during cleanup. -/
theorem transientOrAuthFailureRemovesToken :
    specClassify (gw500 "t1").status = some .transientError ∧
    (sendTaskAssignedNotifications gw500 none [userU1] taskT ["u1"]).2.1
      = [{ userU1 with fcmTokens := [] }] ∧
    specClassify (gw401 "t1").status = some .authError ∧
    (sendTaskAssignedNotifications gw401 none [userU1] taskT ["u1"]).2.1
      = [{ userU1 with fcmTokens := [] }] := by
  decide

/-- Claim C2, counterexample.  The claim says token values are deduplicated
across all resolved users, each unique value receiving at most one send per
dispatch.  With two assignees both holding the value "tokA", the dispatch
issues two gateway sends to "tokA" (deduplication happens only inside
`sendNotificationToUserFromDb`, i.e. per user). -/
theorem sharedTokenSentOncePerHolder :
    sendCountFor "tokA"
        (sendTaskAssignedNotifications gw200 none [userUA, userUB] taskT ["uA", "uB"]).2.2
      = 2 ∧
    ¬ sendCountFor "tokA"
        (sendTaskAssignedNotifications gw200 none [userUA, userUB] taskT ["uA", "uB"]).2.2
      ≤ 1 := by
  decide

/-- Claim C4, counterexample.  The claim says an assignee with an empty token
collection yields an empty sequence rather than an error.  The code throws
`'No FCM tokens found for user …'` instead: token resolution for the
zero-token user u3 is an error, not `.ok []`. -/
theorem emptyTokenCollectionThrows :
    (sendNotificationToUserFromDb gw200 [userU3] "u3" (taskPayload taskT)).1
      = .error "No FCM tokens found for user u3" :=
  rfl

/-- Claim C5.  For an empty assignee sequence, dispatch returns the empty
report `{sent: 0, failed: 0, details: []}` immediately, leaves the registry
untouched and produces no events at all — in particular zero gateway send
calls and zero token-registry lookups. -/
theorem dispatchEmptyAssignees (gw : Gateway) (ff : Option String) (db : Registry)
    (task : Task) :
    sendTaskAssignedNotifications gw ff db task [] = (.ok .empty, db, []) ∧
    sendCount (sendTaskAssignedNotifications gw ff db task []).2.2 = 0 ∧
    lookupCount (sendTaskAssignedNotifications gw ff db task []).2.2 = 0 :=
  ⟨rfl, rfl, rfl⟩

/-- Claim C9, counterexample.  The claim says the number of token-lookup
storage round-trips of one dispatch is constant in the assignee count.  The
batched `User.find` is followed by one `findById` per user inside
`sendNotificationToUserFromDb`: one assignee costs 2 lookups, two assignees
cost 3. -/
theorem lookupCountGrowsWithAssignees :
    lookupCount (sendTaskAssignedNotifications gw200 none [userU1, userU2] taskT
        ["u1"]).2.2 = 2 ∧
    lookupCount (sendTaskAssignedNotifications gw200 none [userU1, userU2] taskT
        ["u1", "u2"]).2.2 = 3 := by
  decide

/-- Claim C10, counterexample.  The claim says the register endpoint creates
the user with exactly the role string supplied in the body.  The User schema
constrains `role` to the enum `['admin','user']`, so a request carrying role
"root" fails schema validation on save: the endpoint answers 500 and no user
is created. -/
theorem registerRejectsNonEnumRole :
    register hashFix "id1" []
        { name := "Eve", email := "eve@example.com", password := "pw",
          role := some "root" }
      = (.serverError, []) := by
  decide

/-- Claim C3.  When the batched assignee lookup fails, the whole dispatch call
rejects with that storage error, the registry is untouched, and the only event
is the attempted `User.find` — zero gateway sends, the per-token phases are
never reached.  When the lookup succeeds, dispatch always resolves to an `ok`
report, whatever the gateway answers: individual send failures are never
raised to the caller. -/
theorem dispatchLookupFailurePropagates (gw : Gateway) (db : Registry) (task : Task)
    (ids : List String) (msg : String) (h : ids ≠ []) :
    sendTaskAssignedNotifications gw (some msg) db task ids
      = (.error msg, db, [.dbFind ids]) ∧
    sendCount (sendTaskAssignedNotifications gw (some msg) db task ids).2.2 = 0 ∧
    ∃ summary failedTokens,
      (sendTaskAssignedNotifications gw none db task ids).1
        = .ok (.report summary failedTokens) := by
  have hne : ids.isEmpty = false := by
    cases ids with
    | nil => exact absurd rfl h
    | cons a l => rfl
  refine ⟨?_, ?_, ?_⟩
  · simp [sendTaskAssignedNotifications, hne]
  · simp [sendTaskAssignedNotifications, hne, sendCount, isSendEvent, List.filter]
  · refine ⟨(dispatchUsers gw db task ((fetchUsers db ids).map fun u => u.id)).1,
      collectFailedTokens
        (dispatchUsers gw db task ((fetchUsers db ids).map fun u => u.id)).1, ?_⟩
    simp [sendTaskAssignedNotifications, hne]

theorem dispatchLookupFailurePropagates_witness :
    sendTaskAssignedNotifications gw200 (some "storage down") [userU1] taskT ["u1"]
        = (.error "storage down", [userU1], [.dbFind ["u1"]]) ∧
      sendCount (sendTaskAssignedNotifications gw200 (some "storage down") [userU1]
        taskT ["u1"]).2.2 = 0 ∧
      ∃ summary failedTokens,
        (sendTaskAssignedNotifications gw200 none [userU1] taskT ["u1"]).1
          = .ok (.report summary failedTokens) :=
  dispatchLookupFailurePropagates gw200 [userU1] taskT ["u1"] "storage down" (by decide)

/-- Claim C4, amended.  For an assignee whose gathered token collection is
empty, token resolution raises `'No FCM tokens found for user …'` rather than
yielding an empty sequence; the dispatch loop catches it, so the report entry
for that user records the error with zero attempted tokens (`results = []`),
and zero gateway calls are made on that user's behalf. -/
theorem dispatchUserNoTokensErrorEntry (gw : Gateway) (db : Registry) (task : Task)
    (uid : String) (u : UserRec) (hne : ¬ uid = "")
    (hfind : findById db uid = some u) (htok : gatherTokens u = []) :
    dispatchUser gw db task uid
      = ({ userId := uid, ok := false, results := [], failed := [],
           error := some ("No FCM tokens found for user " ++ uid) },
         [.dbFindById uid]) ∧
    sendCount (dispatchUser gw db task uid).2 = 0 := by
  have h1 : (uid == "") = false := beq_eq_false_iff_ne.mpr hne
  constructor
  · simp [dispatchUser, sendNotificationToUserFromDb, h1, hfind, htok]
  · simp [dispatchUser, sendNotificationToUserFromDb, h1, hfind, htok, sendCount,
      isSendEvent, List.filter]

theorem dispatchUserNoTokensErrorEntry_witness :
    dispatchUser gw200 [userU3] taskT "u3"
        = ({ userId := "u3", ok := false, results := [], failed := [],
             error := some ("No FCM tokens found for user " ++ "u3") },
           [.dbFindById "u3"]) ∧
      sendCount (dispatchUser gw200 [userU3] taskT "u3").2 = 0 :=
  dispatchUserNoTokensErrorEntry gw200 [userU3] taskT "u3" userU3 (by decide) rfl rfl

/-- Claim C7.  Once the title check passes and the task is persisted
(`saveFails = false`), the endpoint answers 201 Created for every gateway
behaviour and every lookup outcome: per-token send failures, a rejected
dispatch (`findFails`), and cleanup effects are all captured by the handler's
try/catch and never surface as an API error. -/
theorem createTaskCreatedOnceSaved (gw : Gateway) (ff : Option String) (db : Registry)
    (tid : String) (req : CreateTaskReq) (t : String)
    (ht : req.title = some t) (htrim : ¬ strTrim t = "") :
    (createTaskHandler gw ff false db tid req).1 = .created := by
  have h1 : (strTrim t == "") = false := beq_eq_false_iff_ne.mpr htrim
  simp [createTaskHandler, ht, h1]

def reqFix : CreateTaskReq :=
  { title := some "Fix bug", description := none, assignedTo := .arr ["u1"] }

theorem createTaskCreatedOnceSaved_witness :
    (createTaskHandler gw500 none false [userU1] "task9" reqFix).1 = .created :=
  createTaskCreatedOnceSaved gw500 none [userU1] "task9" reqFix "Fix bug" rfl (by decide)

/-- `updateFirst` is the identity when no element matches the filter. -/
theorem updateFirst_of_none (p : UserRec → Bool) (f : UserRec → UserRec) :
    ∀ l : Registry, (∀ v ∈ l, p v = false) → updateFirst p f l = l := by
  intro l h
  induction l with
  | nil => rfl
  | cons u rest ih =>
    unfold updateFirst
    rw [h u (by simp)]
    simp only [Bool.false_eq_true, if_false]
    rw [ih fun v hv => h v (by simp [hv])]

/-- A projection untouched by the update function is untouched by
`updateFirst`. -/
theorem updateFirst_map_eq {β : Type} (g : UserRec → β) (p : UserRec → Bool)
    (f : UserRec → UserRec) (hf : ∀ u, g (f u) = g u) :
    ∀ l : Registry, (updateFirst p f l).map g = l.map g := by
  intro l
  induction l with
  | nil => rfl
  | cons u rest ih =>
    unfold updateFirst
    cases hpu : p u with
    | true => simp [hf]
    | false => simp [ih]

/-- Core of the `addToken` idempotence: running the conditional push plus the
legacy set twice (with possibly different pushed entries, both carrying the
same token value) equals running it once, provided at most one document has
the target id (the `_id` field is unique in mongo). -/
theorem addTokenPairIdem (uid tok : String) (e1 e2 : TokenEntry)
    (he1 : e1.token = tok) (_he2 : e2.token = tok) :
    ∀ db : Registry, db.countP (fun u => u.id == uid) ≤ 1 →
      updateFirst (fun u => u.id == uid) (fun u => { u with fcmToken := some tok })
        (updateFirst (fun u => u.id == uid && !(u.fcmTokens.any fun e => e.token == tok))
          (fun u => { u with fcmTokens := u.fcmTokens ++ [e2] })
          (updateFirst (fun u => u.id == uid) (fun u => { u with fcmToken := some tok })
            (updateFirst
              (fun u => u.id == uid && !(u.fcmTokens.any fun e => e.token == tok))
              (fun u => { u with fcmTokens := u.fcmTokens ++ [e1] }) db)))
      = updateFirst (fun u => u.id == uid) (fun u => { u with fcmToken := some tok })
          (updateFirst
            (fun u => u.id == uid && !(u.fcmTokens.any fun e => e.token == tok))
            (fun u => { u with fcmTokens := u.fcmTokens ++ [e1] }) db) := by
  intro db
  induction db with
  | nil => intro _; rfl
  | cons u rest ih =>
    intro h
    by_cases hid : (u.id == uid) = true
    · have hrest : ∀ v ∈ rest, (v.id == uid) = false := by
        simp [List.countP_cons, hid] at h
        intro v hv
        simpa using h v hv
      have hr1 : ∀ f : UserRec → UserRec,
          updateFirst (fun u => u.id == uid && !(u.fcmTokens.any fun e => e.token == tok))
            f rest = rest :=
        fun f => updateFirst_of_none _ f rest (fun v hv => by simp [hrest v hv])
      have hr2 : ∀ f : UserRec → UserRec,
          updateFirst (fun u => u.id == uid) f rest = rest :=
        fun f => updateFirst_of_none _ f rest (fun v hv => by simp [hrest v hv])
      by_cases hany : (u.fcmTokens.any fun e => e.token == tok) = true
      · simp [updateFirst, hid, hany, hr1, hr2]
      · simp [updateFirst, hid, hany, hr1, hr2, he1]
    · have hid2 : (u.id == uid) = false := by simpa using hid
      have h2 : rest.countP (fun u => u.id == uid) ≤ 1 := by
        simpa [List.countP_cons, hid2] using h
      simp [updateFirst, hid2, ih h2]

/-- Unfolded state change of POST /api/tasks/device-token for a non-empty
token string: the conditional push (`updateOne` with `$ne` filter, `$push`)
followed by the legacy `$set`. -/
theorem deviceTokenHandler_state (db : Registry) (uid tok : String)
    (pf : Option String) (n : Nat) (htok : (tok == "") = false) :
    (deviceTokenHandler db uid (some tok) pf n).2
      = updateFirst (fun u => u.id == uid) (fun u => { u with fcmToken := some tok })
          (updateFirst
            (fun u => u.id == uid && !(u.fcmTokens.any fun e => e.token == tok))
            (fun u => { u with fcmTokens :=
                u.fcmTokens ++ [{ token := tok, platform := pf.getD "",
                                  createdAt := n }] }) db) := by
  simp [deviceTokenHandler, htok]

/-- Claim C8.  `addToken` is idempotent: when a mongo-unique id is assumed (at
most one document carries the target `_id`), a token value already present in
that user's collection is not pushed again — the push's `$ne` filter fails, so
every user's `fcmTokens` array is left exactly as it was — and registering the
same (user, token) pair twice (with any platforms and timestamps) leaves the
same registry state as registering it once. -/
theorem addTokenIdempotent (db : Registry) (uid tok : String)
    (pf1 pf2 : Option String) (n1 n2 : Nat)
    (huniq : db.countP (fun u => u.id == uid) ≤ 1) :
    ((∀ u ∈ db, u.id = uid → tok ∈ u.fcmTokens.map TokenEntry.token) →
        ((deviceTokenHandler db uid (some tok) pf1 n1).2).map UserRec.fcmTokens
          = db.map UserRec.fcmTokens) ∧
    (deviceTokenHandler (deviceTokenHandler db uid (some tok) pf1 n1).2 uid (some tok)
        pf2 n2).2
      = (deviceTokenHandler db uid (some tok) pf1 n1).2 := by
  by_cases htok : (tok == "") = true
  · constructor
    · intro _
      simp [deviceTokenHandler, htok]
    · simp [deviceTokenHandler, htok]
  · have htokF : (tok == "") = false := by simpa using htok
    constructor
    · intro hpresent
      rw [deviceTokenHandler_state db uid tok pf1 n1 htokF]
      have hnone : ∀ v ∈ db,
          (fun u => u.id == uid && !(u.fcmTokens.any fun e => e.token == tok)) v
            = false := by
        intro v hv
        by_cases hvid : (v.id == uid) = true
        · have hmem := hpresent v hv (by simpa using hvid)
          have hany : (v.fcmTokens.any fun e => e.token == tok) = true := by
            simp only [List.mem_map] at hmem
            obtain ⟨e, he, hetok⟩ := hmem
            exact List.any_eq_true.mpr ⟨e, he, by simp [hetok]⟩
          simp [hvid, hany]
        · simp [show (v.id == uid) = false by simpa using hvid]
      rw [updateFirst_of_none _ _ db hnone]
      exact updateFirst_map_eq UserRec.fcmTokens (fun u => u.id == uid)
        (fun u => { u with fcmToken := some tok }) (fun u => rfl) db
    · rw [deviceTokenHandler_state _ uid tok pf2 n2 htokF,
        deviceTokenHandler_state db uid tok pf1 n1 htokF]
      exact addTokenPairIdem uid tok _ _ rfl rfl db huniq

theorem addTokenIdempotent_witness :
    ((∀ u ∈ [userU1], u.id = "u1" → "tNew" ∈ u.fcmTokens.map TokenEntry.token) →
        ((deviceTokenHandler [userU1] "u1" (some "tNew") none 1).2).map UserRec.fcmTokens
          = [userU1].map UserRec.fcmTokens) ∧
    (deviceTokenHandler (deviceTokenHandler [userU1] "u1" (some "tNew") none 1).2 "u1"
        (some "tNew") none 2).2
      = (deviceTokenHandler [userU1] "u1" (some "tNew") none 1).2 :=
  addTokenIdempotent [userU1] "u1" "tNew" none none 1 2 (by decide)

/-- Claim C10, amended.  The register endpoint takes the account role straight
from the request body with no authentication check anywhere in its inputs:
whenever the email is unused, the required fields are non-empty and the
effective role (`role || 'user'`) lies in the schema enum, the created user and
the signed JWT payload carry exactly that role — in particular an
unauthenticated request with role "admin" yields an admin credential.  (Role
strings outside the enum are rejected by schema validation, and an absent or
empty role string defaults to "user".) -/
theorem registerUsesRequestRole (hash : String → String) (newId : String)
    (db : Registry) (req : RegisterReq)
    (hmail : db.find? (fun u => u.email == req.email) = none)
    (hname : ¬ req.name = "") (hemail : ¬ req.email = "")
    (hpw : ¬ hash req.password = "")
    (hrole : effRole req.role = "admin" ∨ effRole req.role = "user") :
    register hash newId db req
      = (.success { id := newId, role := effRole req.role } newId req.name req.email
           (effRole req.role),
         db ++ [{ id := newId, name := req.name, email := req.email,
                  password := hash req.password, role := effRole req.role,
                  fcmTokens := [], fcmToken := none }]) := by
  have hn : (req.name == "") = false := beq_eq_false_iff_ne.mpr hname
  have he : (req.email == "") = false := beq_eq_false_iff_ne.mpr hemail
  have hp : (hash req.password == "") = false := beq_eq_false_iff_ne.mpr hpw
  have hv : validRole (effRole req.role) = true := by
    rcases hrole with h | h <;> simp [validRole, h]
  simp [register, hmail, saveValid, hn, he, hp, hv]

def reqAdmin : RegisterReq :=
  { name := "Eve", email := "eve@example.com", password := "pw", role := some "admin" }

/-- Mapping a function that fixes every element of a list is the identity. -/
theorem map_id_of_fixes {α : Type} (f : α → α) :
    ∀ l : List α, (∀ a ∈ l, f a = a) → l.map f = l := by
  intro l h
  induction l with
  | nil => rfl
  | cons a t ih =>
    simp only [List.map_cons]
    rw [h a (by simp), ih fun b hb => h b (by simp [hb])]

/-- Claim C6.  The `removeToken` operation (the two `updateMany` calls) removes
the value from the `fcmTokens` array of every user record holding it — not
just one holder — and clears every legacy `fcmToken` field equal to it; and
when no user holds the value at all it is a no-op on the registry rather than
an error. -/
theorem removeTokenEverywhereAndNoop (db : Registry) (tv : String) :
    (∀ u ∈ (removeTokenEverywhere db tv).1,
        (∀ e ∈ u.fcmTokens, ¬ e.token = tv) ∧ ¬ u.fcmToken = some tv) ∧
    ((∀ u ∈ db, ¬ holdsToken u tv) → (removeTokenEverywhere db tv).1 = db) := by
  constructor
  · intro u hu
    simp only [removeTokenEverywhere, List.mem_map] at hu
    obtain ⟨w, ⟨v, hv, rfl⟩, rfl⟩ := hu
    constructor
    · intro e he
      have he2 : e ∈ (pullToken tv v).fcmTokens := by
        unfold unsetLegacyTok at he
        split at he <;> simpa using he
      simp only [pullToken, List.mem_filter] at he2
      simpa using he2.2
    · unfold unsetLegacyTok
      split
      · simp
      · next h =>
        intro hc
        exact h (by simpa [pullToken] using hc)
  · intro hnone
    simp only [removeTokenEverywhere]
    have h1 : db.map (pullToken tv) = db := by
      apply map_id_of_fixes
      intro u hu
      have hna := hnone u hu
      simp only [holdsToken, not_or, not_exists, not_and] at hna
      have hall : ∀ e ∈ u.fcmTokens, (!(e.token == tv)) = true := by
        intro e he
        simpa using hna.1 e he
      unfold pullToken
      rw [List.filter_eq_self.mpr hall]
    rw [h1]
    apply map_id_of_fixes
    intro u hu
    have hna := hnone u hu
    simp only [holdsToken, not_or, not_exists, not_and] at hna
    have hb : (u.fcmToken == some tv) = false := beq_eq_false_iff_ne.mpr hna.2
    simp [unsetLegacyTok, hb]

theorem removeTokenEverywhereAndNoop_witness :
    (removeTokenEverywhere [userU3] "tZ").1 = [userU3] :=
  (removeTokenEverywhereAndNoop [userU3] "tZ").2 (by decide)

theorem registerUsesRequestRole_witness :
    register hashFix "id9" [] reqAdmin
      = (.success { id := "id9", role := "admin" } "id9" "Eve" "eve@example.com" "admin",
         [{ id := "id9", name := "Eve", email := "eve@example.com",
            password := "hashed:pw", role := "admin", fcmTokens := [],
            fcmToken := none }]) :=
  registerUsesRequestRole hashFix "id9" [] reqAdmin rfl (by decide) (by decide)
    (by decide) (Or.inl (by decide))

/-- Counting may be split over a trace concatenation. -/
theorem sendCountFor_append (tv : String) (a b : List Event) :
    sendCountFor tv (a ++ b) = sendCountFor tv a + sendCountFor tv b := by
  simp [sendCountFor, List.filter_append]

/-- Lookup counting may be split over a trace concatenation. -/
theorem lookupCount_append (a b : List Event) :
    lookupCount (a ++ b) = lookupCount a + lookupCount b := by
  simp [lookupCount, List.filter_append]

/-- One event that is not a gateway send to `tv` does not change the send
count. -/
theorem sendCountFor_cons_ne (tv : String) (e : Event) (evs : List Event)
    (h : ¬ e = Event.gatewaySend tv) :
    sendCountFor tv (e :: evs) = sendCountFor tv evs := by
  simp [sendCountFor, List.filter_cons, beq_eq_false_iff_ne.mpr h]

/-- A gateway send to `tv` itself increments the send count. -/
theorem sendCountFor_cons_self (tv : String) (evs : List Event) :
    sendCountFor tv (Event.gatewaySend tv :: evs) = sendCountFor tv evs + 1 := by
  simp [sendCountFor, List.filter_cons, Nat.add_comm]

/-- Lookup count over a cons, by whether the head is a lookup. -/
theorem lookupCount_cons (e : Event) (evs : List Event) :
    lookupCount (e :: evs) = (if isLookupEvent e then 1 else 0) + lookupCount evs := by
  unfold lookupCount
  rw [List.filter_cons]
  split
  · simp [Nat.add_comm]
  · simp

/-- The cleanup loop performs no gateway sends and no token lookups. -/
theorem cleanupLoop_counts :
    ∀ (l : List CleanupItem) (db : Registry) (tv : String),
      sendCountFor tv (cleanupLoop db l).2 = 0 ∧ lookupCount (cleanupLoop db l).2 = 0 := by
  intro l
  induction l with
  | nil => intro db tv; exact ⟨rfl, rfl⟩
  | cons f rest ih =>
    intro db tv
    have hs : (cleanupLoop db (f :: rest)).2
        = Event.dbPullToken f.token :: Event.dbUnsetLegacy f.token ::
            (cleanupLoop
              ((db.map (pullToken f.token)).map (unsetLegacyTok f.token)) rest).2 := rfl
    constructor
    · rw [hs, sendCountFor_cons_ne tv _ _ (by intro h; exact Event.noConfusion h),
        sendCountFor_cons_ne tv _ _ (by intro h; exact Event.noConfusion h)]
      exact (ih _ tv).1
    · rw [hs, lookupCount_cons, lookupCount_cons]
      have h1 : isLookupEvent (Event.dbPullToken f.token) = false := rfl
      have h2 : isLookupEvent (Event.dbUnsetLegacy f.token) = false := rfl
      rw [h1, h2]
      simpa using (ih _ tv).2

/-- The per-token send loop performs no token lookups. -/
theorem sendTokensLoop_lookupCount (gw : Gateway) (p : Payload) :
    ∀ l : List String, lookupCount (sendTokensLoop gw p l).2 = 0 := by
  intro l
  induction l with
  | nil => rfl
  | cons tk rest ih =>
    have hs : (sendTokensLoop gw p (tk :: rest)).2
        = (sendToToken gw tk p).2 ++ (sendTokensLoop gw p rest).2 := rfl
    rw [hs, lookupCount_append, ih]
    unfold sendToToken
    by_cases htk : (tk == "") = true
    · simp [htk, lookupCount]
    · have htkF : (tk == "") = false := by simpa using htk
      rw [htkF]
      simp only [Bool.false_eq_true, if_false]
      split <;> simp [lookupCount_cons, isLookupEvent, lookupCount]

/-- For a list of non-empty tokens, the send loop's trace is exactly one
gateway send per token, in order. -/
theorem sendTokensLoop_events (gw : Gateway) (p : Payload) :
    ∀ l : List String, (∀ tk ∈ l, ¬ tk = "") →
      (sendTokensLoop gw p l).2 = l.map Event.gatewaySend := by
  intro l h
  induction l with
  | nil => rfl
  | cons tk rest ih =>
    have htkF : (tk == "") = false := beq_eq_false_iff_ne.mpr (h tk (by simp))
    have htl := ih fun x hx => h x (by simp [hx])
    have hs : (sendTokensLoop gw p (tk :: rest)).2
        = (sendToToken gw tk p).2 ++ (sendTokensLoop gw p rest).2 := rfl
    rw [hs, htl]
    unfold sendToToken
    rw [htkF]
    simp only [Bool.false_eq_true, if_false, List.map_cons]
    split <;> simp

/-- Gateway sends to `tv` among a pure send trace count occurrences of `tv`. -/
theorem sendCountFor_map_gatewaySend (tv : String) :
    ∀ l : List String, sendCountFor tv (l.map Event.gatewaySend) = l.count tv := by
  intro l
  induction l with
  | nil => rfl
  | cons a t ih =>
    by_cases ha : a = tv
    · subst ha
      simp [sendCountFor, List.count_cons, List.filter] at *
      omega
    · have h1 : (Event.gatewaySend a == Event.gatewaySend tv) = false := by
        simpa using ha
      have h2 : (a == tv) = false := beq_eq_false_iff_ne.mpr ha
      simp [sendCountFor, List.count_cons, List.filter, h1, h2] at *
      exact ih

/-- A pure gateway-send trace contains no lookups. -/
theorem lookupCount_map_gatewaySend :
    ∀ l : List String, lookupCount (l.map Event.gatewaySend) = 0 := by
  intro l
  induction l with
  | nil => rfl
  | cons a t ih => simp [lookupCount, List.filter, isLookupEvent, ih]

/-- Membership is preserved from the deduplicated list back to the source. -/
theorem mem_of_mem_dedupFrom :
    ∀ (l seen : List String) (x : String), x ∈ dedupFrom l seen → x ∈ l := by
  intro l
  induction l with
  | nil =>
    intro seen x hx
    simp [dedupFrom] at hx
  | cons t ts ih =>
    intro seen x hx
    unfold dedupFrom at hx
    by_cases hts : t ∈ seen
    · rw [if_pos hts] at hx
      exact List.mem_cons_of_mem _ (ih seen x hx)
    · rw [if_neg hts] at hx
      rcases List.mem_cons.mp hx with h | h
      · simp [h]
      · exact List.mem_cons_of_mem _ (ih _ x h)

/-- Occurrence count after deduplication: zero if already seen, otherwise one
per value present in the source list. -/
theorem dedupFrom_count (tv : String) :
    ∀ l seen : List String, (dedupFrom l seen).count tv
      = if tv ∈ seen then 0 else if tv ∈ l then 1 else 0 := by
  intro l
  induction l with
  | nil => intro seen; simp [dedupFrom]
  | cons t ts ih =>
    intro seen
    unfold dedupFrom
    by_cases hts : t ∈ seen
    · rw [if_pos hts, ih seen]
      by_cases htv : tv ∈ seen
      · simp [htv]
      · have hne : ¬ tv = t := fun he => htv (he ▸ hts)
        simp [htv, List.mem_cons, hne]
    · rw [if_neg hts, List.count_cons, ih (t :: seen)]
      by_cases htv : tv ∈ seen
      · have h1 : tv ∈ t :: seen := by simp [htv]
        have hne : (t == tv) = false := by
          refine beq_eq_false_iff_ne.mpr ?_
          intro he
          exact hts (he ▸ htv)
        simp [h1, htv, hne]
      · by_cases he : tv = t
        · subst he
          have h1 : tv ∈ tv :: seen := by simp
          simp [h1, htv, List.mem_cons]
        · have h1 : tv ∉ t :: seen := by simp [htv, he]
          have hne : (t == tv) = false := beq_eq_false_iff_ne.mpr fun h2 => he h2.symm
          simp [h1, htv, hne, List.mem_cons, he]

/-- Each value occurs in the deduplicated list exactly once if present in the
source, and never otherwise. -/
theorem dedup_count (tv : String) (l : List String) :
    (dedup l).count tv = if tv ∈ l then 1 else 0 := by
  simpa [dedup] using dedupFrom_count tv l []

/-- Every gathered token is truthy: the empty string is never gathered. -/
theorem gatherTokens_ne_empty (u : UserRec) : ∀ x ∈ gatherTokens u, ¬ x = "" := by
  intro x hx
  unfold gatherTokens at hx
  rcases List.mem_append.mp hx with h1 | h2
  · obtain ⟨e, _, heq⟩ := List.mem_filterMap.mp h1
    intro hxe
    subst hxe
    split at heq
    · exact Option.noConfusion heq
    · next hcond => exact hcond (by rw [Option.some.inj heq]; rfl)
  · intro hxe
    subst hxe
    revert h2
    cases u.fcmToken with
    | none => intro h2; exact absurd h2 (List.not_mem_nil _)
    | some t =>
      intro h2
      have h2x : "" ∈ (if (t == "") = true then ([] : List String) else [t]) := h2
      by_cases hbc : (t == "") = true
      · rw [if_pos hbc] at h2x
        exact absurd h2x (List.not_mem_nil _)
      · rw [if_neg hbc] at h2x
        exact hbc (by rw [(List.mem_singleton.mp h2x).symm]; rfl)

/-- Event trace of one notification-service call for a found user: the
`findById` round-trip, then (when tokens were gathered) one gateway send per
deduplicated token. -/
theorem sendNotification_events (gw : Gateway) (p : Payload) (db : Registry)
    (uid : String) (u : UserRec) (hne : (uid == "") = false)
    (hfind : findById db uid = some u) :
    (sendNotificationToUserFromDb gw db uid p).2
      = .dbFindById uid ::
          (if (gatherTokens u).isEmpty then []
           else (dedup (gatherTokens u)).map Event.gatewaySend) := by
  unfold sendNotificationToUserFromDb
  rw [hne, hfind]
  simp only [Bool.false_eq_true, if_false]
  by_cases hemp : (gatherTokens u).isEmpty = true
  · simp [hemp]
  · have hempF : (gatherTokens u).isEmpty = false := by simpa using hemp
    have hloop := sendTokensLoop_events gw p (dedup (gatherTokens u)) fun tk hk =>
      gatherTokens_ne_empty u tk (mem_of_mem_dedupFrom (gatherTokens u) [] tk hk)
    simp [hempF, hloop]

/-- Gateway sends to one token value made on behalf of one dispatched user:
exactly one when the (unambiguously) resolved user holds the value, zero
otherwise. -/
theorem dispatchUser_sendCountFor (gw : Gateway) (db : Registry) (task : Task)
    (tv uid : String) (u : UserRec) (hne : (uid == "") = false)
    (hfind : findById db uid = some u) :
    sendCountFor tv (dispatchUser gw db task uid).2
      = if tv ∈ gatherTokens u then 1 else 0 := by
  have hd : (dispatchUser gw db task uid).2
      = (sendNotificationToUserFromDb gw db uid (taskPayload task)).2 := rfl
  rw [hd, sendNotification_events gw (taskPayload task) db uid u hne hfind]
  by_cases hemp : (gatherTokens u).isEmpty = true
  · have hgt : gatherTokens u = [] := by simpa using hemp
    rw [hgt]
    have h0 : sendCountFor tv [Event.dbFindById uid] = 0 := by
      rw [sendCountFor_cons_ne tv _ _ fun h => Event.noConfusion h]
      rfl
    simp [h0]
  · have hempF : (gatherTokens u).isEmpty = false := by simpa using hemp
    rw [hempF]
    simp only [Bool.false_eq_true, if_false]
    rw [sendCountFor_cons_ne tv _ _ fun h => Event.noConfusion h,
      sendCountFor_map_gatewaySend, dedup_count]

/-- One dispatched user costs exactly one lookup round-trip (the `findById`),
whatever the resolution outcome. -/
theorem dispatchUser_lookupCount (gw : Gateway) (db : Registry) (task : Task)
    (uid : String) (hne : (uid == "") = false) :
    lookupCount (dispatchUser gw db task uid).2 = 1 := by
  have hd : (dispatchUser gw db task uid).2
      = (sendNotificationToUserFromDb gw db uid (taskPayload task)).2 := rfl
  rw [hd]
  unfold sendNotificationToUserFromDb
  rw [hne]
  simp only [Bool.false_eq_true, if_false]
  cases hf : findById db uid with
  | none => simp [lookupCount, List.filter, isLookupEvent]
  | some u =>
    by_cases hemp : (gatherTokens u).isEmpty = true
    · simp [hemp, lookupCount, List.filter, isLookupEvent]
    · have hempF : (gatherTokens u).isEmpty = false := by simpa using hemp
      have hl := sendTokensLoop_lookupCount gw (taskPayload task)
        (dedup (gatherTokens u))
      simp [hempF, lookupCount, List.filter, isLookupEvent] at hl ⊢
      exact hl

/-- With a duplicate-free id column, `findById` on a member's id returns that
member. -/
theorem findById_of_mem :
    ∀ (db : Registry) (u : UserRec), (db.map UserRec.id).Nodup → u ∈ db →
      findById db u.id = some u := by
  intro db
  induction db with
  | nil => intro u _ hu; cases hu
  | cons v rest ih =>
    intro u hnd hu
    simp only [List.map_cons, List.nodup_cons] at hnd
    rcases List.mem_cons.mp hu with rfl | hmem
    · simp [findById, List.find?]
    · have hvne : (v.id == u.id) = false := by
        refine beq_eq_false_iff_ne.mpr ?_
        intro he
        exact hnd.1 (by rw [he]; exact List.mem_map_of_mem UserRec.id hmem)
      have hrec := ih u hnd.2 hmem
      simpa [findById, List.find?, hvne] using hrec

/-- Gateway sends to one token value across the whole per-user loop: one per
listed user holding the value. -/
theorem dispatchUsers_sendCountFor (gw : Gateway) (db : Registry) (task : Task)
    (tv : String) :
    ∀ ul : List UserRec,
      (∀ u ∈ ul, (u.id == "") = false ∧ findById db u.id = some u) →
      sendCountFor tv (dispatchUsers gw db task (ul.map fun u => u.id)).2
        = ul.countP (fun u => decide (tv ∈ gatherTokens u)) := by
  intro ul
  induction ul with
  | nil => intro _; rfl
  | cons u rest ih =>
    intro h
    have hu := h u (by simp)
    have hrest := ih fun v hv => h v (by simp [hv])
    simp only [List.map_cons, dispatchUsers, sendCountFor_append, hrest,
      List.countP_cons]
    rw [dispatchUser_sendCountFor gw db task tv u.id u hu.1 hu.2]
    by_cases hmem : tv ∈ gatherTokens u
    · simp [hmem, Nat.add_comm]
    · simp [hmem]

/-- Lookup round-trips of the whole per-user loop: one per listed user id. -/
theorem dispatchUsers_lookupCount (gw : Gateway) (db : Registry) (task : Task) :
    ∀ uids : List String, (∀ x ∈ uids, (x == "") = false) →
      lookupCount (dispatchUsers gw db task uids).2 = uids.length := by
  intro uids
  induction uids with
  | nil => intro _; rfl
  | cons x rest ih =>
    intro h
    simp only [dispatchUsers, lookupCount_append, List.length_cons]
    rw [dispatchUser_lookupCount gw db task x (h x (by simp)),
      ih fun y hy => h y (by simp [hy])]
    omega

/-- Claim C2, amended.  Tokens are deduplicated only within one user's
resolved token list, not across users: assuming mongo-unique ids and real
(non-empty) assignee ids, a dispatch sends to a token value exactly once per
fetched assignee whose stored tokens contain that value — so at most one send
per user, but one send per holder when several assignees share the value. -/
theorem dispatchSendsOncePerHolder (gw : Gateway) (db : Registry) (task : Task)
    (ids : List String) (tv : String)
    (hnd : (db.map UserRec.id).Nodup) (hne : ¬ "" ∈ ids) :
    sendCountFor tv (sendTaskAssignedNotifications gw none db task ids).2.2
      = (fetchUsers db ids).countP (fun u => decide (tv ∈ gatherTokens u)) := by
  by_cases hids : ids.isEmpty = true
  · have : ids = [] := by simpa using hids
    subst this
    simp [sendTaskAssignedNotifications, fetchUsers, sendCountFor,
      List.contains, List.filter]
  · have hidsF : ids.isEmpty = false := by simpa using hids
    have hfetched : ∀ u ∈ fetchUsers db ids,
        (u.id == "") = false ∧ findById db u.id = some u := by
      intro u hu
      have hmem := List.mem_filter.mp hu
      constructor
      · refine beq_eq_false_iff_ne.mpr ?_
        intro he
        have hin : u.id ∈ ids := by simpa using hmem.2
        exact hne (he ▸ hin)
      · exact findById_of_mem db u hnd hmem.1
    have hmain := dispatchUsers_sendCountFor gw db task tv (fetchUsers db ids) hfetched
    have hclean := (cleanupLoop_counts
      (collectFailedTokens
        (dispatchUsers gw db task ((fetchUsers db ids).map fun u => u.id)).1)
      db tv).1
    simp only [sendTaskAssignedNotifications, hidsF, Bool.false_eq_true, if_false]
    rw [sendCountFor_cons_ne tv _ _ fun h => Event.noConfusion h, sendCountFor_append,
      hmain, hclean]
    omega

theorem dispatchSendsOncePerHolder_witness :
    sendCountFor "tokA"
        (sendTaskAssignedNotifications gw200 none [userUA] taskT ["uA"]).2.2
      = (fetchUsers [userUA] ["uA"]).countP
          (fun u => decide ("tokA" ∈ gatherTokens u)) :=
  dispatchSendsOncePerHolder gw200 [userUA] taskT ["uA"] "tokA" (by decide) (by decide)

/-- Claim C9, amended.  The user list is fetched in one batched call, but each
fetched user's tokens are then re-resolved with an individual `findById`
inside the notification service, so a dispatch over a non-empty assignee list
performs `1 + n` token-lookup round-trips, where `n` is the number of fetched
assignees — linear in the assignee count, not constant. -/
theorem dispatchLookupRoundTrips (gw : Gateway) (db : Registry) (task : Task)
    (ids : List String) (h1 : ids ≠ []) (hne : ¬ "" ∈ ids) :
    lookupCount (sendTaskAssignedNotifications gw none db task ids).2.2
      = 1 + (fetchUsers db ids).length := by
  have hidsF : ids.isEmpty = false := by
    cases ids with
    | nil => exact absurd rfl h1
    | cons a l => rfl
  have hclean := (cleanupLoop_counts
    (collectFailedTokens
      (dispatchUsers gw db task ((fetchUsers db ids).map fun u => u.id)).1)
    db "").2
  have hloop := dispatchUsers_lookupCount gw db task
    ((fetchUsers db ids).map fun u => u.id)
    (by
      intro x hx
      obtain ⟨u, hu, rfl⟩ := List.mem_map.mp hx
      refine beq_eq_false_iff_ne.mpr ?_
      intro he
      have hmem := List.mem_filter.mp hu
      have hin : u.id ∈ ids := by simpa using hmem.2
      exact hne (he ▸ hin))
  simp only [sendTaskAssignedNotifications, hidsF, Bool.false_eq_true, if_false]
  have hhead : ∀ evs : List Event, lookupCount (Event.dbFind ids :: evs)
      = 1 + lookupCount evs := by
    intro evs
    rw [lookupCount_cons]
    rfl
  rw [hhead, lookupCount_append, hloop, hclean, List.length_map]
  omega

theorem dispatchLookupRoundTrips_witness :
    lookupCount (sendTaskAssignedNotifications gw200 none [userU1, userU2] taskT
        ["u1", "u2"]).2.2
      = 1 + (fetchUsers [userU1, userU2] ["u1", "u2"]).length :=
  dispatchLookupRoundTrips gw200 [userU1, userU2] taskT ["u1", "u2"] (by decide)
    (by decide)

end TaskServer
